import Mathlib

/-!
Verification of the `DistronodePlaybook` command builder/executor from
`src/molecule/provisioner/ansible_playbook.py`, over a shallow embedding.

Python dictionaries are embedded as insertion-ordered association lists,
Python truthiness as `Value.truthy`, and the child process as a pure
`runner` function supplied to `execute`.  Helper functions from
`molecule.util` are not part of the sources; they are modelled from the
specification and marked as such in their doc comments.
-/

namespace Molecule

/-- A Python value as it occurs in the option mappings of this module:
strings, booleans or integers. -/
inductive Value where
  | str : String → Value
  | bool : Bool → Value
  | int : Int → Value
deriving DecidableEq, Repr

/-- Python truthiness of a `Value`: empty string, `False` and `0` are falsy. -/
def Value.truthy : Value → Bool
  | .str s => !s.isEmpty
  | .bool b => b
  | .int n => n != 0

/-- A Python `dict` with string keys and `Value` values, embedded as an
insertion-ordered association list with unique keys maintained by
`setKey`. -/
abbrev Dict := List (String × Value)

/-- `d[k] = v` on an insertion-ordered mapping: replace in place when the
key exists, append otherwise. -/
def setKey {β : Type} (d : List (String × β)) (k : String) (v : β) :
    List (String × β) :=
  if d.any (fun p => p.1 == k) then
    d.map (fun p => if p.1 == k then (k, v) else p)
  else
    d ++ [(k, v)]

/-- `d.get(k)`: the value at key `k`, if present. -/
def getKey {β : Type} (d : List (String × β)) (k : String) : Option β :=
  (d.find? (fun p => p.1 == k)).map (fun p => p.2)

/-- `del d[k]`: remove the key from the mapping. -/
def delKey {β : Type} (d : List (String × β)) (k : String) :
    List (String × β) :=
  d.filter (fun p => p.1 != k)

/-- Truthiness of a `d.get(k)` result: Python treats a missing key as falsy. -/
def truthyOpt : Option Value → Bool
  | some v => v.truthy
  | none => false

/-- An environment mapping (string keys to string values), also an
insertion-ordered association list. -/
abbrev Env := List (String × String)

/-- Key membership in a mapping, as Python `k in d`. -/
def hasKey {β : Type} (d : List (String × β)) (k : String) : Bool :=
  d.any (fun p => p.1 == k)

/-- Modelled from the spec (the `molecule.util.merge_dicts` helper is not in
the sources): merge two mappings, the second layer taking precedence on key
collision — "local arguments take precedence on key collision". -/
def merge_dicts {β : Type} (a b : List (String × β)) : List (String × β) :=
  b.foldl (fun acc kv => setKey acc kv.1 kv.2) a

/-- Modelled from the spec (the `molecule.util.dict2args` helper is not in
the sources): "Flattens merged options into POSIX-style CLI tokens".  Each
key becomes a `--key` flag; a `True` value yields the bare flag, a `False`
value yields nothing, and any other value is rendered as a token after the
flag. -/
def dict2args (d : Dict) : List String :=
  d.foldr (fun kv acc => argTokens kv ++ acc) []
where
  /-- The CLI tokens of one key/value pair. -/
  argTokens : String × Value → List String
    | (k, .bool true) => ["--" ++ k]
    | (_k, .bool false) => []
    | (k, .str s) => ["--" ++ k, s]
    | (k, .int n) => ["--" ++ k, toString n]

/-- Modelled from the spec (the `molecule.util.verbose_flag` helper is not
in the sources): "Derive a verbosity flag from the merged options" — a
truthy `v` option yields the `-v` flag. -/
def verbose_flag (options : Dict) : List String :=
  if truthyOpt (getKey options "v") then ["-v"] else []

/-- Modelled from the spec (the `molecule.util.bool2args` helper is not in
the sources): render the derived verbosity flag as CLI tokens. -/
def bool2args (flag : List String) : List String := flag

/-- The slice of the Molecule config object that `DistronodePlaybook`
reads: provisioner options and environment, inventory directory, the
designated converge playbook, the two extra-argument lists, the current
action and the verifier environments. -/
structure Config where
  provisioner_options : Dict
  provisioner_inventory_directory : String
  provisioner_playbooks_converge : String
  provisioner_distronode_args : List String
  provisioner_env : Env
  distronode_args : List String
  action : String
  verifier_env : Env
  config_verifier_env : Env
  scenario_path : String
  debug : Bool
deriving DecidableEq, Repr

/-- The state of a `DistronodePlaybook` instance: the lazily baked command,
the playbook path (the empty string embeds Python `None`/`""`, both falsy),
the config, the local CLI overrides and the selected environment. -/
structure DistronodePlaybook where
  _distronode_command : Option (List String)
  _playbook : String
  _config : Config
  _cli : Dict
  _env : Env
deriving DecidableEq, Repr

/-- `DistronodePlaybook.__init__`: no command yet, empty CLI overrides, and
the environment selected by the `verify` flag. -/
def DistronodePlaybook.init (playbook : String) (config : Config)
    (verify : Bool) : DistronodePlaybook :=
  { _distronode_command := none
    _playbook := playbook
    _config := config
    _cli := []
    _env :=
      if verify then
        merge_dicts config.verifier_env config.config_verifier_env
      else config.provisioner_env }

/-- `DistronodePlaybook.add_cli_arg`: store a local override, a no-op when
the value is falsy. -/
def DistronodePlaybook.add_cli_arg (p : DistronodePlaybook) (name : String)
    (value : Value) : DistronodePlaybook :=
  if value.truthy then { p with _cli := setKey p._cli name value } else p

/-- `DistronodePlaybook.add_env_arg`: unconditionally set an environment
variable override. -/
def DistronodePlaybook.add_env_arg (p : DistronodePlaybook)
    (name value : String) : DistronodePlaybook :=
  { p with _env := setKey p._env name value }

/-- `DistronodePlaybook.bake`: construct the `distronode-playbook` argument
vector.  Returns immediately when no playbook is set; otherwise adds the
inventory directory as a CLI override, merges the provisioner options with
the local overrides, derives the verbosity flag, strips a truthy `become`
option for non-converge playbooks, drops the extra argument lists for the
`create` and `destroy` actions, and stores the token sequence with the
playbook path last. -/
def DistronodePlaybook.bake (p : DistronodePlaybook) : DistronodePlaybook :=
  if p._playbook == "" then p
  else
    let p1 := p.add_cli_arg "inventory"
      (Value.str p._config.provisioner_inventory_directory)
    let options0 := merge_dicts p1._config.provisioner_options p1._cli
    let vflag := verbose_flag options0
    let options :=
      if p1._playbook ≠ p1._config.provisioner_playbooks_converge then
        if truthyOpt (getKey options0 "become") then delKey options0 "become"
        else options0
      else options0
    let distronode_args :=
      if p1._config.action ∉ ["create", "destroy"] then
        p1._config.provisioner_distronode_args ++ p1._config.distronode_args
      else []
    { p1 with
      _distronode_command := some
        (["distronode-playbook"] ++ dict2args options ++ bool2args vflag ++
          distronode_args ++ [p1._playbook]) }

/-- The single-quote character, written by code point to keep the sources
free of quoting ambiguity. -/
def sq : String := String.singleton (Char.ofNat 39)

/-- Characters Python `shlex` considers safe to leave unquoted. -/
def shlexSafe (c : Char) : Bool :=
  c.isAlphanum ||
    ((c == '@') || (c == '%') || (c == '+') || (c == '=') || (c == ':') ||
      (c == ',') || (c == '.') || (c == '/') || (c == '-') || (c == '_'))

/-- Model of Python `shlex.quote` per its documentation: an empty string
becomes a pair of single quotes, a string of safe characters is returned
unchanged, and anything else is wrapped in single quotes with each embedded
single quote replaced by the closing/escaped/reopening sequence. -/
def shlex_quote (s : String) : String :=
  if s.isEmpty then sq ++ sq
  else if s.data.all shlexSafe then s
  else
    sq ++
      String.join (s.data.map fun c =>
        if c == Char.ofNat 39 then sq ++ "\"" ++ sq ++ "\"" ++ sq
        else String.singleton c) ++
      sq

/-- Model of Python `shlex.join` per its documentation: quote every token
and join them with single spaces. -/
def shlex_join (args : List String) : String :=
  String.intercalate " " (args.map shlex_quote)

/-- Escaping of markup-opening brackets, the character-level model of
`rich.markup.escape`: a backslash is inserted before every `[`. -/
def escapeChars : List Char → List Char
  | [] => []
  | c :: cs =>
    if c == '[' then Char.ofNat 92 :: c :: escapeChars cs
    else c :: escapeChars cs

/-- Model of `rich.markup.escape`: escape markup-opening brackets so the
command line is displayed verbatim. -/
def escape (s : String) : String := String.mk (escapeChars s.data)

/-- The result of running the child process, as `execute` consumes it: the
argument vector, the exit code and the captured standard output. -/
structure CompletedProcess where
  args : List String
  returncode : Int
  stdout : String
deriving DecidableEq, Repr

/-- Modelled from the spec (the `molecule.util.run_command` helper is not in
the sources): run the argument vector as a child process and return its exit
code, captured stdout and the original argument vector.  The child process
itself is abstracted as the pure `runner` function. -/
def run_command (runner : List String → Int × String)
    (cmd : List String) : CompletedProcess :=
  { args := cmd, returncode := (runner cmd).1, stdout := (runner cmd).2 }

/-- The observable outcome of `execute`: a logged skip (`None` returned, no
child process run), termination of the host process with an exit code and a
diagnostic message (`util.sysexit_with_message`), or the captured stdout. -/
inductive ExecOutcome where
  | skipped : ExecOutcome
  | exited (code : Int) (message : String) : ExecOutcome
  | ok (stdout : String) : ExecOutcome
deriving DecidableEq, Repr

/-- The diagnostic message `execute` formats on a non-zero exit code:
the exit code and the shell-escaped command line, wrapped in display
markup. -/
def exitMessage (result : CompletedProcess) : String :=
  "Distronode return code was " ++ toString result.returncode ++
    ", command was: [dim]" ++ escape (shlex_join result.args) ++ "[/dim]"

/-- The tail of `execute` once a command is in hand: run it, then either
terminate with the child exit code and the diagnostic message, or return
the captured stdout. -/
def runBaked (cmd : List String)
    (runner : List String → Int × String) : ExecOutcome :=
  let result := run_command runner cmd
  if result.returncode != 0 then
    ExecOutcome.exited result.returncode (exitMessage result)
  else ExecOutcome.ok result.stdout

/-- `DistronodePlaybook.execute`: bake lazily when no command is stored yet,
skip with a warning when no playbook is set, and otherwise run the baked
command, exiting on a non-zero return code and returning stdout on zero. -/
def DistronodePlaybook.execute (p : DistronodePlaybook)
    (runner : List String → Int × String) : DistronodePlaybook × ExecOutcome :=
  let q := if p._distronode_command.isNone then p.bake else p
  if q._playbook == "" then (q, ExecOutcome.skipped)
  else (q, runBaked (q._distronode_command.getD []) runner)

/-- The command `execute` runs: the stored one, or the one bake produces. -/
def DistronodePlaybook.bakedCmd (p : DistronodePlaybook) : List String :=
  ((if p._distronode_command.isNone then p.bake else p)._distronode_command).getD []

/-- The options mapping bake merges: provisioner options overridden by the
local CLI overrides, after the inventory directory has been added. -/
def bakeMergedOptions (p : DistronodePlaybook) : Dict :=
  merge_dicts p._config.provisioner_options
    ((p.add_cli_arg "inventory"
      (Value.str p._config.provisioner_inventory_directory))._cli)

/-- The options mapping bake renders: the merged options, with a truthy
`become` stripped for non-converge playbooks. -/
def bakeFinalOptions (p : DistronodePlaybook) : Dict :=
  let o := bakeMergedOptions p
  if p._playbook ≠ p._config.provisioner_playbooks_converge then
    if truthyOpt (getKey o "become") then delKey o "become" else o
  else o

/-- The extra raw argument lists bake appends: both context-supplied lists,
except for the `create` and `destroy` actions. -/
def bakeExtraArgs (p : DistronodePlaybook) : List String :=
  if p._config.action ∉ ["create", "destroy"] then
    p._config.provisioner_distronode_args ++ p._config.distronode_args
  else []

/-- The token sequence bake stores for an instance with a playbook. -/
def bakedTokens (p : DistronodePlaybook) : List String :=
  ["distronode-playbook"] ++ dict2args (bakeFinalOptions p) ++
    bool2args (verbose_flag (bakeMergedOptions p)) ++ bakeExtraArgs p ++
    [p._playbook]

/-- The same instance with both context-supplied extra argument lists
emptied; used to state that create/destroy baking ignores those lists. -/
def zeroExtraArgs (p : DistronodePlaybook) : DistronodePlaybook :=
  { p with _config := { p._config with
      provisioner_distronode_args := [], distronode_args := [] } }

/-- `s` contains `t` as a contiguous substring. -/
def ContainsSubstr (s t : String) : Prop := ∃ a b, s = a ++ t ++ b

def cfgW : Config :=
  { provisioner_options := [("skip-tags", .str "notest"), ("become", .bool true)]
    provisioner_inventory_directory := "/inv"
    provisioner_playbooks_converge := "converge.yml"
    provisioner_distronode_args := ["-e", "x=1"]
    provisioner_env := [("PATH", "/bin")]
    distronode_args := ["--limit", "h1"]
    action := "side_effect"
    verifier_env := []
    config_verifier_env := []
    scenario_path := "/scn"
    debug := false }

def pW : DistronodePlaybook := DistronodePlaybook.init "playbook.yml" cfgW false

def cfgCD : Config :=
  { provisioner_options := [("become", .bool true)]
    provisioner_inventory_directory := "/inv"
    provisioner_playbooks_converge := "converge.yml"
    provisioner_distronode_args := ["-e", "x=1"]
    provisioner_env := []
    distronode_args := ["--limit", "h1"]
    action := "destroy"
    verifier_env := []
    config_verifier_env := []
    scenario_path := "/scn"
    debug := false }

def pCD : DistronodePlaybook := DistronodePlaybook.init "destroy.yml" cfgCD false

def cfgBC : Config := { cfgW with provisioner_options := [("become", .str "")] }

def pBC : DistronodePlaybook := DistronodePlaybook.init "playbook.yml" cfgBC false

def p5 : DistronodePlaybook := DistronodePlaybook.init "" cfgW false

def runnerFail : List String → Int × String := fun _ => (2, "boom")

def runnerOk : List String → Int × String := fun _ => (0, "all-good")

def p6 : DistronodePlaybook :=
  (DistronodePlaybook.init "playbook.yml" cfgW false).add_cli_arg "inventory"
    (Value.str "/user")

def cfgNI : Config := { cfgW with provisioner_inventory_directory := "" }

def p10 : DistronodePlaybook :=
  (DistronodePlaybook.init "playbook.yml" cfgNI false).add_cli_arg "inventory"
    (Value.str "/foo")

@[simp]
theorem add_cli_arg_config (p : DistronodePlaybook) (n : String) (v : Value) :
    (p.add_cli_arg n v)._config = p._config := by
  unfold DistronodePlaybook.add_cli_arg; split <;> rfl

@[simp]
theorem add_cli_arg_playbook (p : DistronodePlaybook) (n : String) (v : Value) :
    (p.add_cli_arg n v)._playbook = p._playbook := by
  unfold DistronodePlaybook.add_cli_arg; split <;> rfl

@[simp]
theorem add_cli_arg_env (p : DistronodePlaybook) (n : String) (v : Value) :
    (p.add_cli_arg n v)._env = p._env := by
  unfold DistronodePlaybook.add_cli_arg; split <;> rfl

@[simp]
theorem add_cli_arg_command (p : DistronodePlaybook) (n : String) (v : Value) :
    (p.add_cli_arg n v)._distronode_command = p._distronode_command := by
  unfold DistronodePlaybook.add_cli_arg; split <;> rfl

@[simp]
theorem bake_playbook (p : DistronodePlaybook) :
    (p.bake)._playbook = p._playbook := by
  unfold DistronodePlaybook.bake; split <;> simp

@[simp]
theorem bake_config (p : DistronodePlaybook) :
    (p.bake)._config = p._config := by
  unfold DistronodePlaybook.bake; split <;> simp

@[simp]
theorem bake_env (p : DistronodePlaybook) :
    (p.bake)._env = p._env := by
  unfold DistronodePlaybook.bake; split <;> simp

theorem getLast?_append_singleton {α : Type} (l : List α) (a : α) :
    (l ++ [a]).getLast? = some a := by
  simp [List.getLast?_append_cons]

theorem getKey_eq_none_of_hasKey_false {β : Type} (d : List (String × β)) (k : String)
    (h : hasKey d k = false) : getKey d k = none := by
  induction d with
  | nil => rfl
  | cons x xs ih =>
    simp only [hasKey, List.any_cons, Bool.or_eq_false_iff] at h
    unfold getKey
    rw [List.find?_cons_of_neg _ (by simp [h.1])]
    exact ih (by simp [hasKey, h.2])

theorem find?_map_replace_self {β : Type} (d : List (String × β)) (k : String) (v : β) :
    List.find? (fun p => p.1 == k)
        (d.map (fun p => if p.1 == k then (k, v) else p)) =
      if hasKey d k then some (k, v) else none := by
  induction d with
  | nil => rfl
  | cons x xs ih =>
    simp only [List.map_cons, hasKey, List.any_cons]
    by_cases hx : x.1 = k
    · have h1 : (if (x.1 == k) = true then (k, v) else x) = (k, v) := by simp [hx]
      rw [h1, List.find?_cons_of_pos _ (by simp)]
      simp [hx]
    · have hx2 : (x.1 == k) = false := by simp [hx]
      have h1 : (if (x.1 == k) = true then (k, v) else x) = x := by simp [hx]
      rw [h1, List.find?_cons_of_neg _ (by simp [hx]), ih]
      simp only [hx2, Bool.false_or, hasKey]

theorem find?_map_replace_ne {β : Type} (d : List (String × β)) (k : String) (v : β) (k2 : String)
    (h : k2 ≠ k) :
    List.find? (fun p => p.1 == k2)
        (d.map (fun p => if p.1 == k then (k, v) else p)) =
      List.find? (fun p => p.1 == k2) d := by
  induction d with
  | nil => rfl
  | cons x xs ih =>
    simp only [List.map_cons]
    by_cases hx : x.1 = k
    · have h1 : (if (x.1 == k) = true then (k, v) else x) = (k, v) := by simp [hx]
      rw [h1, List.find?_cons_of_neg _ (by simp; exact fun e => h e.symm),
        List.find?_cons_of_neg _ (by simp [hx]; exact fun e => h e.symm), ih]
    · have h1 : (if (x.1 == k) = true then (k, v) else x) = x := by simp [hx]
      rw [h1]
      cases hc : (x.1 == k2) with
      | true =>
        have e1 : List.find? (fun p => p.1 == k2)
            (x :: List.map (fun p => if (p.1 == k) = true then (k, v) else p) xs) =
            some x := List.find?_cons_of_pos _ hc
        have e2 : List.find? (fun p => p.1 == k2) (x :: xs) = some x :=
          List.find?_cons_of_pos _ hc
        rw [e1, e2]
      | false =>
        have e1 : List.find? (fun p => p.1 == k2)
            (x :: List.map (fun p => if (p.1 == k) = true then (k, v) else p) xs) =
            List.find? (fun p => p.1 == k2)
              (List.map (fun p => if (p.1 == k) = true then (k, v) else p) xs) :=
          List.find?_cons_of_neg _ (by simp [hc])
        have e2 : List.find? (fun p => p.1 == k2) (x :: xs) =
            List.find? (fun p => p.1 == k2) xs :=
          List.find?_cons_of_neg _ (by simp [hc])
        rw [e1, e2, ih]

theorem getKey_setKey {β : Type} (d : List (String × β)) (k : String) (v : β) (k2 : String) :
    getKey (setKey d k v) k2 = if k2 = k then some v else getKey d k2 := by
  unfold setKey
  cases hmem : hasKey d k with
  | true =>
    simp only [hasKey] at hmem
    simp only [hmem, if_true]
    by_cases h2 : k2 = k
    · subst h2
      simp only [getKey, find?_map_replace_self]
      simp [hasKey, hmem]
    · simp only [getKey, find?_map_replace_ne d k v k2 h2, h2, if_false]
  | false =>
    simp only [hasKey] at hmem
    simp only [hmem, Bool.false_eq_true, if_false]
    by_cases h2 : k2 = k
    · subst h2
      have hnone : List.find? (fun p => p.1 == k2) d = none := by
        have h3 := getKey_eq_none_of_hasKey_false d k2 (by simp [hasKey, hmem])
        unfold getKey at h3
        cases hf : List.find? (fun p => p.1 == k2) d with
        | none => rfl
        | some x => rw [hf] at h3; simp at h3
      simp [getKey, List.find?_append, hnone]
    · have hk : (k == k2) = false := by simpa using fun e => h2 e.symm
      cases hfind : List.find? (fun p => p.1 == k2) d with
      | some x => simp [getKey, List.find?_append, hfind, h2]
      | none => simp [getKey, List.find?_append, hfind, h2, hk]

theorem setKey_setKey {β : Type} (d : List (String × β)) (k : String) (v : β) :
    setKey (setKey d k v) k v = setKey d k v := by
  unfold setKey
  cases hmem : d.any (fun p => p.1 == k) with
  | true =>
    have hany : ((d.map (fun p => if p.1 == k then (k, v) else p)).any
        (fun p => p.1 == k)) = true := by
      rw [List.any_eq_true] at hmem ⊢
      obtain ⟨x, hx, hpx⟩ := hmem
      refine ⟨(k, v), List.mem_map.mpr ⟨x, hx, by simp [hpx]⟩, by simp⟩
    simp only [hmem, if_true, hany]
    rw [List.map_map]
    have hff : ((fun p : String × β => if p.1 == k then (k, v) else p) ∘
        (fun p : String × β => if p.1 == k then (k, v) else p)) =
        (fun p : String × β => if p.1 == k then (k, v) else p) := by
      funext q
      by_cases hq : q.1 = k <;> simp [hq]
    rw [hff]
  | false =>
    have hany : ((d ++ [(k, v)]).any (fun p => p.1 == k)) = true := by
      simp [List.any_append]
    simp only [hmem, Bool.false_eq_true, if_false, hany, if_true]
    rw [List.map_append]
    congr 1
    · have hpt : ∀ x ∈ d, (if (x.1 == k) = true then (k, v) else x) = x := by
        intro x hx
        have hb := List.any_eq_false.mp hmem x hx
        simp only [Bool.not_eq_true] at hb
        simp [hb]
      simpa using List.map_congr_left hpt
    · simp

theorem getKey_merge_dicts_not_mem {β : Type} (a b : List (String × β)) (k : String)
    (h : hasKey b k = false) :
    getKey (merge_dicts a b) k = getKey a k := by
  induction b generalizing a with
  | nil => rfl
  | cons x bs ih =>
    simp only [hasKey, List.any_cons, Bool.or_eq_false_iff] at h
    have hstep : merge_dicts a (x :: bs) = merge_dicts (setKey a x.1 x.2) bs := rfl
    rw [hstep, ih _ (by simp [hasKey, h.2]), getKey_setKey]
    have : k ≠ x.1 := fun e => by simp [e] at h
    simp [this]

theorem getKey_merge_dicts_of_mem {β : Type} (a b : List (String × β)) (k : String) (v : β)
    (hnd : (b.map Prod.fst).Nodup) (h : getKey b k = some v) :
    getKey (merge_dicts a b) k = some v := by
  induction b generalizing a with
  | nil => simp [getKey] at h
  | cons x bs ih =>
    simp only [List.map_cons, List.nodup_cons] at hnd
    have hstep : merge_dicts a (x :: bs) = merge_dicts (setKey a x.1 x.2) bs := rfl
    cases hx : (x.1 == k) with
    | true =>
      have hkx : x.1 = k := by simpa using hx
      have hnb : hasKey bs k = false := by
        rcases hb : hasKey bs k with _ | _
        · rfl
        · exfalso
          rw [hasKey, List.any_eq_true] at hb
          obtain ⟨y, hy, hyk⟩ := hb
          exact hnd.1 (hkx ▸ (by simpa using hyk) ▸ List.mem_map_of_mem Prod.fst hy)
      have hv : x.2 = v := by
        unfold getKey at h
        have e : List.find? (fun p => p.1 == k) (x :: bs) = some x :=
          List.find?_cons_of_pos _ hx
        rw [e] at h
        simpa using h
      rw [hstep, getKey_merge_dicts_not_mem _ _ _ hnb, getKey_setKey]
      simp [hkx, hv]
    | false =>
      have h2 : getKey bs k = some v := by
        unfold getKey at h ⊢
        rw [List.find?_cons_of_neg _ (by simp [hx])] at h
        exact h
      rw [hstep]
      exact ih _ hnd.2 h2

theorem nodup_keys_setKey {β : Type} (d : List (String × β)) (k : String) (v : β)
    (h : (d.map Prod.fst).Nodup) : ((setKey d k v).map Prod.fst).Nodup := by
  unfold setKey
  cases hmem : d.any (fun p => p.1 == k) with
  | true =>
    simp only [if_true]
    rw [List.map_map]
    have hfst : (Prod.fst ∘ (fun p : String × β =>
        if p.1 == k then (k, v) else p)) = Prod.fst := by
      funext q
      by_cases hq : q.1 = k <;> simp [hq]
    rwa [hfst]
  | false =>
    simp only [Bool.false_eq_true, if_false]
    rw [List.map_append]
    rw [List.nodup_append]
    refine ⟨h, by simp, ?_⟩
    intro y hy
    simp only [List.map_cons, List.map_nil, List.mem_singleton]
    intro he
    rw [List.mem_map] at hy
    obtain ⟨x, hx, hxy⟩ := hy
    rw [List.any_eq_false] at hmem
    exact absurd (show (x.1 == k) = true by simp [hxy, he]) (by simpa using hmem x hx)

theorem hasKey_delKey {β : Type} (d : List (String × β)) (k : String) : hasKey (delKey d k) k = false := by
  unfold hasKey delKey
  rw [List.any_eq_false]
  intro x hx
  rw [List.mem_filter] at hx
  simpa using hx.2

@[simp]
theorem zeroExtraArgs_playbook (p : DistronodePlaybook) :
    (zeroExtraArgs p)._playbook = p._playbook := rfl

@[simp]
theorem zeroExtraArgs_cli (p : DistronodePlaybook) :
    (zeroExtraArgs p)._cli = p._cli := rfl

@[simp]
theorem zeroExtraArgs_command (p : DistronodePlaybook) :
    (zeroExtraArgs p)._distronode_command = p._distronode_command := rfl

@[simp]
theorem zeroExtraArgs_options (p : DistronodePlaybook) :
    (zeroExtraArgs p)._config.provisioner_options =
      p._config.provisioner_options := rfl

@[simp]
theorem zeroExtraArgs_invdir (p : DistronodePlaybook) :
    (zeroExtraArgs p)._config.provisioner_inventory_directory =
      p._config.provisioner_inventory_directory := rfl

@[simp]
theorem zeroExtraArgs_converge (p : DistronodePlaybook) :
    (zeroExtraArgs p)._config.provisioner_playbooks_converge =
      p._config.provisioner_playbooks_converge := rfl

@[simp]
theorem zeroExtraArgs_action (p : DistronodePlaybook) :
    (zeroExtraArgs p)._config.action = p._config.action := rfl

theorem zeroExtraArgs_merged (p : DistronodePlaybook) :
    bakeMergedOptions (zeroExtraArgs p) = bakeMergedOptions p := by
  unfold bakeMergedOptions DistronodePlaybook.add_cli_arg
  simp only [zeroExtraArgs_invdir, zeroExtraArgs_cli]
  split <;> rfl

theorem zeroExtraArgs_final (p : DistronodePlaybook) :
    bakeFinalOptions (zeroExtraArgs p) = bakeFinalOptions p := by
  simp [bakeFinalOptions, zeroExtraArgs_merged]

theorem add_cli_arg_of_falsy (q : DistronodePlaybook) (n : String) (v : Value)
    (h : v.truthy = false) : q.add_cli_arg n v = q := by
  unfold DistronodePlaybook.add_cli_arg
  simp [h]

theorem add_cli_arg_cli_of_truthy (q : DistronodePlaybook) (n : String)
    (v : Value) (h : v.truthy = true) :
    (q.add_cli_arg n v)._cli = setKey q._cli n v := by
  unfold DistronodePlaybook.add_cli_arg
  simp [h]

theorem condBake_playbook (p : DistronodePlaybook) :
    ((if p._distronode_command.isNone then p.bake else p))._playbook =
      p._playbook := by
  split <;> simp

theorem bake_command_eq (p : DistronodePlaybook) (h : p._playbook ≠ "") :
    (p.bake)._distronode_command =
      some (["distronode-playbook"] ++ dict2args (bakeFinalOptions p) ++
        bool2args (verbose_flag (bakeMergedOptions p)) ++ bakeExtraArgs p ++
        [p._playbook]) := by
  have hb : (p._playbook == "") = false := by simpa using h
  simp only [DistronodePlaybook.bake, hb, Bool.false_eq_true, if_false,
    bakeFinalOptions, bakeMergedOptions, bakeExtraArgs,
    add_cli_arg_config, add_cli_arg_playbook]

theorem bake_eq (p : DistronodePlaybook) (h : p._playbook ≠ "") :
    p.bake = { p with
      _cli := (p.add_cli_arg "inventory"
        (Value.str p._config.provisioner_inventory_directory))._cli
      _distronode_command := some (bakedTokens p) } := by
  have hb : (p._playbook == "") = false := by simpa using h
  simp only [DistronodePlaybook.bake, hb, Bool.false_eq_true, if_false,
    bakedTokens, bakeFinalOptions, bakeMergedOptions, bakeExtraArgs,
    add_cli_arg_config, add_cli_arg_playbook, add_cli_arg_env,
    add_cli_arg_command]

theorem bake_cli_eq (p : DistronodePlaybook) (h : p._playbook ≠ "") :
    (p.bake)._cli = (p.add_cli_arg "inventory"
      (Value.str p._config.provisioner_inventory_directory))._cli := by
  rw [bake_eq p h]

theorem bake_inv_cli_stable (p : DistronodePlaybook) (h : p._playbook ≠ "") :
    ((p.bake).add_cli_arg "inventory"
      (Value.str p._config.provisioner_inventory_directory))._cli =
    (p.add_cli_arg "inventory"
      (Value.str p._config.provisioner_inventory_directory))._cli := by
  cases hd : (Value.str p._config.provisioner_inventory_directory).truthy with
  | false =>
    rw [add_cli_arg_of_falsy _ _ _ hd, add_cli_arg_of_falsy _ _ _ hd,
      bake_cli_eq p h, add_cli_arg_of_falsy _ _ _ hd]
  | true =>
    rw [add_cli_arg_cli_of_truthy _ _ _ hd, add_cli_arg_cli_of_truthy _ _ _ hd,
      bake_cli_eq p h, add_cli_arg_cli_of_truthy _ _ _ hd, setKey_setKey]

theorem bake_merged_stable (p : DistronodePlaybook) (h : p._playbook ≠ "") :
    bakeMergedOptions (p.bake) = bakeMergedOptions p := by
  unfold bakeMergedOptions
  rw [bake_config, bake_inv_cli_stable p h]

theorem bake_final_stable (p : DistronodePlaybook) (h : p._playbook ≠ "") :
    bakeFinalOptions (p.bake) = bakeFinalOptions p := by
  unfold bakeFinalOptions
  rw [bake_merged_stable p h, bake_playbook, bake_config]

theorem bake_extra_stable (p : DistronodePlaybook) :
    bakeExtraArgs (p.bake) = bakeExtraArgs p := by
  unfold bakeExtraArgs
  rw [bake_config]

theorem bakedTokens_stable (p : DistronodePlaybook) (h : p._playbook ≠ "") :
    bakedTokens (p.bake) = bakedTokens p := by
  unfold bakedTokens
  rw [bake_final_stable p h, bake_merged_stable p h, bake_extra_stable,
    bake_playbook]

/-- C1: for every instance with a playbook path set, the baked command is exactly the fixed executable name, then the options rendered as CLI tokens, then the verbosity tokens, then the extra raw argument lists, with the playbook path as the last token. -/
theorem bake_token_order (p : DistronodePlaybook) (h : p._playbook ≠ "") :
    ∃ cmd, (p.bake)._distronode_command = some cmd ∧
      cmd = ["distronode-playbook"] ++ dict2args (bakeFinalOptions p) ++
        bool2args (verbose_flag (bakeMergedOptions p)) ++ bakeExtraArgs p ++
        [p._playbook] ∧
      cmd.head? = some "distronode-playbook" ∧
      cmd.getLast? = some p._playbook := by
  refine ⟨_, bake_command_eq p h, rfl, rfl, ?_⟩
  have hassoc :
      ["distronode-playbook"] ++ dict2args (bakeFinalOptions p) ++
          bool2args (verbose_flag (bakeMergedOptions p)) ++ bakeExtraArgs p ++
          [p._playbook] =
        (["distronode-playbook"] ++ dict2args (bakeFinalOptions p) ++
          bool2args (verbose_flag (bakeMergedOptions p)) ++ bakeExtraArgs p) ++
          [p._playbook] := by
    simp [List.append_assoc]
  rw [hassoc, getLast?_append_singleton]

theorem bake_token_order_witness :
    pW._playbook ≠ "" ∧
    ∃ cmd, (pW.bake)._distronode_command = some cmd ∧
      cmd = ["distronode-playbook"] ++ dict2args (bakeFinalOptions pW) ++
        bool2args (verbose_flag (bakeMergedOptions pW)) ++ bakeExtraArgs pW ++
        [pW._playbook] ∧
      cmd.head? = some "distronode-playbook" ∧
      cmd.getLast? = some pW._playbook :=
  ⟨by decide, bake_token_order pW (by decide)⟩

/-- C2: for the create and destroy actions the extra argument lists are dropped: the baked command is independent of both context-supplied extra argument lists and contains no extra-args segment. -/
theorem bake_create_destroy_no_extra_args (p : DistronodePlaybook)
    (h : p._config.action = "create" ∨ p._config.action = "destroy") :
    bakeExtraArgs p = [] ∧
    (p.bake)._distronode_command = ((zeroExtraArgs p).bake)._distronode_command ∧
    (p._playbook ≠ "" → (p.bake)._distronode_command =
      some (["distronode-playbook"] ++ dict2args (bakeFinalOptions p) ++
        bool2args (verbose_flag (bakeMergedOptions p)) ++ [p._playbook])) := by
  have hextra : bakeExtraArgs p = [] := by
    unfold bakeExtraArgs
    rcases h with h | h <;> simp [h]
  have hextra2 : bakeExtraArgs (zeroExtraArgs p) = [] := by
    unfold bakeExtraArgs
    rcases h with h | h <;> simp [h]
  refine ⟨hextra, ?_, ?_⟩
  · by_cases hp : p._playbook = ""
    · have e1 : p.bake = p := by
        simp [DistronodePlaybook.bake, hp]
      have e2 : (zeroExtraArgs p).bake = zeroExtraArgs p := by
        simp [DistronodePlaybook.bake, hp]
      rw [e1, e2, zeroExtraArgs_command]
    · have hp2 : (zeroExtraArgs p)._playbook ≠ "" := hp
      rw [bake_command_eq p hp, bake_command_eq _ hp2, hextra, hextra2,
        zeroExtraArgs_merged, zeroExtraArgs_final, zeroExtraArgs_playbook]
  · intro hp
    rw [bake_command_eq p hp, hextra]
    simp

theorem bake_create_destroy_no_extra_args_witness :
    bakeExtraArgs pCD = [] ∧
    (pCD.bake)._distronode_command = ((zeroExtraArgs pCD).bake)._distronode_command ∧
    (pCD._playbook ≠ "" → (pCD.bake)._distronode_command =
      some (["distronode-playbook"] ++ dict2args (bakeFinalOptions pCD) ++
        bool2args (verbose_flag (bakeMergedOptions pCD)) ++ [pCD._playbook])) :=
  bake_create_destroy_no_extra_args pCD (Or.inr rfl)

/-- C3, counterexample: with a falsy become value (the empty string) in the merged options of a non-converge playbook, the become key survives the strip and the baked command contains a bare --become token, so the claim fails for become keys with arbitrary values. -/
theorem bake_become_any_value_counterexample :
    pBC._playbook ≠ pBC._config.provisioner_playbooks_converge ∧
    hasKey (bakeMergedOptions pBC) "become" = true ∧
    ∃ cmd, (pBC.bake)._distronode_command = some cmd ∧ "--become" ∈ cmd := by
  refine ⟨by decide, by decide, ⟨_, rfl, by decide⟩⟩

/-- C3, amended: for a playbook different from the designated converge playbook, bake strips the become option whenever its merged value is truthy; the final rendered options then contain no become key. -/
theorem bake_become_stripped (p : DistronodePlaybook)
    (h1 : p._playbook ≠ p._config.provisioner_playbooks_converge)
    (h2 : truthyOpt (getKey (bakeMergedOptions p) "become") = true) :
    hasKey (bakeFinalOptions p) "become" = false ∧
    getKey (bakeFinalOptions p) "become" = none := by
  unfold bakeFinalOptions
  rw [if_pos h1, if_pos h2]
  exact ⟨hasKey_delKey _ _,
    getKey_eq_none_of_hasKey_false _ _ (hasKey_delKey _ _)⟩

theorem bake_become_stripped_witness :
    pW._playbook ≠ pW._config.provisioner_playbooks_converge ∧
    truthyOpt (getKey (bakeMergedOptions pW) "become") = true ∧
    hasKey (bakeFinalOptions pW) "become" = false ∧
    getKey (bakeFinalOptions pW) "become" = none :=
  ⟨by decide, by decide, bake_become_stripped pW (by decide) (by decide)⟩

/-- C4: when the child process exits with a non-zero return code, execute terminates the host process with exactly that exit code, and the diagnostic message contains the exit code and the shell-escaped reconstruction of the executed command line. -/
theorem execute_nonzero_exit (p : DistronodePlaybook)
    (runner : List String → Int × String)
    (hp : p._playbook ≠ "")
    (hc : (runner p.bakedCmd).1 ≠ 0) :
    (p.execute runner).2 =
      ExecOutcome.exited ((runner p.bakedCmd).1)
        (exitMessage (run_command runner p.bakedCmd)) ∧
    ContainsSubstr (exitMessage (run_command runner p.bakedCmd))
      (toString ((runner p.bakedCmd).1)) ∧
    ContainsSubstr (exitMessage (run_command runner p.bakedCmd))
      (escape (shlex_join p.bakedCmd)) := by
  refine ⟨?_, ?_, ?_⟩
  · unfold DistronodePlaybook.execute
    have hcond : ((if p._distronode_command.isNone then p.bake
        else p)._playbook == "") = false := by
      rw [condBake_playbook]
      simpa using hp
    simp only [hcond, Bool.false_eq_true, if_false]
    show runBaked p.bakedCmd runner = _
    unfold runBaked run_command
    have hc2 : (((runner p.bakedCmd).1 != 0)) = true := by
      simpa using hc
    simp only [hc2, if_true]
  · refine ⟨"Distronode return code was ",
      ", command was: [dim]" ++ (escape (shlex_join p.bakedCmd) ++ "[/dim]"),
      ?_⟩
    unfold exitMessage run_command
    simp [String.append_assoc]
  · refine ⟨"Distronode return code was " ++
      (toString ((runner p.bakedCmd).1) ++ ", command was: [dim]"),
      "[/dim]", ?_⟩
    unfold exitMessage run_command
    simp [String.append_assoc]

theorem execute_nonzero_exit_witness :
    pW._playbook ≠ "" ∧ (runnerFail pW.bakedCmd).1 ≠ 0 ∧
    (pW.execute runnerFail).2 =
      ExecOutcome.exited ((runnerFail pW.bakedCmd).1)
        (exitMessage (run_command runnerFail pW.bakedCmd)) :=
  ⟨by decide, by decide,
    (execute_nonzero_exit pW runnerFail (by decide) (by decide)).1⟩

/-- C5: for an instance whose playbook path is empty, execute returns the skip outcome and its result does not depend on the child-process runner at all, so no child process is invoked. -/
theorem execute_no_playbook_skips (p : DistronodePlaybook)
    (r1 r2 : List String → Int × String)
    (hp : p._playbook = "") :
    (p.execute r1).2 = ExecOutcome.skipped ∧ p.execute r1 = p.execute r2 := by
  unfold DistronodePlaybook.execute
  have hcond : ((if p._distronode_command.isNone then p.bake
      else p)._playbook == "") = true := by
    rw [condBake_playbook]
    simp [hp]
  simp only [hcond, if_true]
  exact ⟨by trivial, by trivial⟩

theorem execute_no_playbook_skips_witness :
    p5._playbook = "" ∧ (p5.execute runnerFail).2 = ExecOutcome.skipped ∧
      p5.execute runnerFail = p5.execute runnerOk :=
  ⟨rfl, execute_no_playbook_skips p5 runnerFail runnerOk rfl⟩

/-- C6, counterexample: a truthy inventory override stored with add_cli_arg does not take precedence at bake time: bake overwrites it with the context inventory directory, so the merged options carry the directory, not the stored override. -/
theorem add_cli_arg_precedence_counterexample :
    (Value.str "/user").truthy = true ∧
    getKey p6._cli "inventory" = some (Value.str "/user") ∧
    getKey (bakeMergedOptions p6) "inventory" = some (Value.str "/inv") ∧
    getKey (bakeMergedOptions p6) "inventory" ≠ some (Value.str "/user") := by
  refine ⟨by decide, by decide, by decide, by decide⟩

/-- C6, amended: add_cli_arg with a falsy value leaves the instance unchanged; with a truthy value the override takes precedence at bake time over any same-named context option, for every name other than inventory when the context inventory directory is truthy. -/
theorem add_cli_arg_no_op_and_precedence (p : DistronodePlaybook)
    (n : String) (v : Value)
    (hnd : (p._cli.map Prod.fst).Nodup) :
    (v.truthy = false → p.add_cli_arg n v = p) ∧
    (v.truthy = true →
      (n ≠ "inventory" ∨
        (Value.str p._config.provisioner_inventory_directory).truthy = false) →
      getKey (bakeMergedOptions (p.add_cli_arg n v)) n = some v) := by
  constructor
  · intro hf
    exact add_cli_arg_of_falsy p n v hf
  · intro ht hn
    have hcli : (p.add_cli_arg n v)._cli = setKey p._cli n v :=
      add_cli_arg_cli_of_truthy p n v ht
    unfold bakeMergedOptions
    rw [add_cli_arg_config]
    cases hd : (Value.str p._config.provisioner_inventory_directory).truthy with
    | false =>
      rw [add_cli_arg_of_falsy _ _ _ hd, hcli]
      refine getKey_merge_dicts_of_mem _ _ _ _ (nodup_keys_setKey _ _ _ hnd) ?_
      rw [getKey_setKey]
      simp
    | true =>
      rw [add_cli_arg_cli_of_truthy _ _ _ hd, hcli]
      have hn2 : n ≠ "inventory" := by
        rcases hn with hn | hf
        · exact hn
        · rw [hd] at hf
          exact absurd hf (by simp)
      refine getKey_merge_dicts_of_mem _ _ _ _
        (nodup_keys_setKey _ _ _ (nodup_keys_setKey _ _ _ hnd)) ?_
      rw [getKey_setKey]
      simp only [hn2, if_false]
      rw [getKey_setKey]
      simp

theorem add_cli_arg_no_op_and_precedence_witness :
    (pW._cli.map Prod.fst).Nodup ∧
    pW.add_cli_arg "x" (Value.str "") = pW ∧
    getKey (bakeMergedOptions (pW.add_cli_arg "limit" (Value.str "h9")))
      "limit" = some (Value.str "h9") :=
  ⟨by decide,
   (add_cli_arg_no_op_and_precedence pW "x" (Value.str "") (by decide)).1
     (by decide),
   (add_cli_arg_no_op_and_precedence pW "limit" (Value.str "h9")
     (by decide)).2 (by decide) (Or.inl (by decide))⟩

/-- C7: when the child process exits with return code 0, execute returns the captured standard output of the child process unchanged. -/
theorem execute_zero_returns_stdout (p : DistronodePlaybook)
    (runner : List String → Int × String)
    (hp : p._playbook ≠ "")
    (hc : (runner p.bakedCmd).1 = 0) :
    (p.execute runner).2 = ExecOutcome.ok ((runner p.bakedCmd).2) := by
  unfold DistronodePlaybook.execute
  have hcond : ((if p._distronode_command.isNone then p.bake
      else p)._playbook == "") = false := by
    rw [condBake_playbook]
    simpa using hp
  simp only [hcond, Bool.false_eq_true, if_false]
  show runBaked p.bakedCmd runner = _
  unfold runBaked run_command
  have hc2 : (((runner p.bakedCmd).1 != 0)) = false := by simpa using hc
  simp only [hc2, Bool.false_eq_true, if_false]

theorem execute_zero_returns_stdout_witness :
    pW._playbook ≠ "" ∧ (runnerOk pW.bakedCmd).1 = 0 ∧
    (pW.execute runnerOk).2 = ExecOutcome.ok ((runnerOk pW.bakedCmd).2) :=
  ⟨by decide, rfl, execute_zero_returns_stdout pW runnerOk (by decide) rfl⟩

/-- C8: bake is idempotent, two successive bakes leave the same state and baked command as one; and execute on an instance that already stores a baked command reuses that command without rebaking, leaving the instance unchanged. -/
theorem bake_idempotent_execute_reuses (p q : DistronodePlaybook)
    (cmd : List String) (runner : List String → Int × String)
    (hq : q._distronode_command = some cmd) :
    p.bake.bake = p.bake ∧
    q.execute runner =
      (q, if q._playbook = "" then ExecOutcome.skipped
        else runBaked cmd runner) := by
  constructor
  · by_cases hp : p._playbook = ""
    · have e : p.bake = p := by simp [DistronodePlaybook.bake, hp]
      rw [e, e]
    · have h2 : (p.bake)._playbook ≠ "" := by rwa [bake_playbook]
      conv_lhs => rw [bake_eq p.bake h2]
      rw [bake_config, bakedTokens_stable p hp, bake_inv_cli_stable p hp]
      rw [bake_eq p hp]
  · unfold DistronodePlaybook.execute
    simp only [hq, Option.isNone_some, Bool.false_eq_true, if_false,
      Option.getD_some]
    by_cases hqp : q._playbook = "" <;> simp [hqp]

theorem bake_idempotent_execute_reuses_witness :
    (pW.bake)._distronode_command = some (bakedTokens pW) ∧
    pW.bake.bake = pW.bake ∧
    (pW.bake).execute runnerOk =
      (pW.bake, if (pW.bake)._playbook = "" then ExecOutcome.skipped
        else runBaked (bakedTokens pW) runnerOk) := by
  have h := bake_idempotent_execute_reuses pW (pW.bake) (bakedTokens pW)
    runnerOk (by decide)
  exact ⟨by decide, h.1, h.2⟩

/-- C9, counterexample: the environment mapping is still mutated after the command has been baked: add_env_arg on a baked instance changes the environment, so the code does not protect the environment after baking. -/
theorem env_not_guarded_after_bake_counterexample :
    ((pW.bake)._distronode_command).isSome = true ∧
    ((pW.bake).add_env_arg "X" "1")._env ≠ (pW.bake)._env := by
  refine ⟨by decide, by decide⟩

/-- C9, amended: add_env_arg unconditionally sets the environment variable, even to an empty value, whenever it is called; bake and execute themselves never mutate the environment mapping. -/
theorem add_env_arg_unconditional (p : DistronodePlaybook) (n v : String)
    (runner : List String → Int × String) :
    (p.add_env_arg n v)._env = setKey p._env n v ∧
    getKey ((p.add_env_arg n v)._env) n = some v ∧
    (p.bake)._env = p._env ∧
    ((p.execute runner).1)._env = p._env := by
  refine ⟨rfl, ?_, bake_env p, ?_⟩
  · show getKey (setKey p._env n v) n = some v
    rw [getKey_setKey]
    simp
  · have h1 : (p.execute runner).1 =
        (if p._distronode_command.isNone then p.bake else p) := by
      unfold DistronodePlaybook.execute
      split <;> (dsimp only []; split <;> rfl)
    rw [h1]
    split
    · exact bake_env p
    · rfl

/-- C10, counterexample: with a falsy inventory directory, a previously stored inventory override survives bake and the baked command still contains an inventory argument, so the command is not inventory-free. -/
theorem bake_falsy_inventory_counterexample :
    (Value.str p10._config.provisioner_inventory_directory).truthy = false ∧
    ∃ cmd, (p10.bake)._distronode_command = some cmd ∧ "--inventory" ∈ cmd := by
  refine ⟨by decide, ⟨_, rfl, by decide⟩⟩

/-- C10, amended: for an instance with a playbook, bake sets the local inventory override to the context inventory directory when the directory is truthy, overwriting any previous override; when the directory is falsy bake leaves the overrides unchanged and adds no inventory argument of its own. -/
theorem bake_inventory_override (p : DistronodePlaybook)
    (h : p._playbook ≠ "") :
    ((Value.str p._config.provisioner_inventory_directory).truthy = true →
      getKey (p.bake)._cli "inventory" =
        some (Value.str p._config.provisioner_inventory_directory)) ∧
    ((Value.str p._config.provisioner_inventory_directory).truthy = false →
      (p.bake)._cli = p._cli) := by
  constructor
  · intro hd
    rw [bake_cli_eq p h, add_cli_arg_cli_of_truthy _ _ _ hd, getKey_setKey]
    simp
  · intro hd
    rw [bake_cli_eq p h, add_cli_arg_of_falsy _ _ _ hd]

theorem bake_inventory_override_witness :
    p6._playbook ≠ "" ∧
    (Value.str p6._config.provisioner_inventory_directory).truthy = true ∧
    getKey p6._cli "inventory" = some (Value.str "/user") ∧
    getKey (p6.bake)._cli "inventory" =
      some (Value.str p6._config.provisioner_inventory_directory) ∧
    (p10.bake)._cli = p10._cli :=
  ⟨by decide, by decide, by decide,
   (bake_inventory_override p6 (by decide)).1 (by decide),
   (bake_inventory_override p10 (by decide)).2 (by decide)⟩

end Molecule
